import Mathlib

/-!
# Verification of the Pro-Driver-Assist keyboard input pipeline

A shallow embedding of the repository's keyboard-to-axis shaping pipeline
(`keyboard_processor.py`), the configuration plumbing in `input_manager.py`,
and the device arbitrator (`input_device_manager.py`), together with theorems
settling the specification claims about them.

Python floats are modelled as real numbers; Python dicts carrying
configuration are modelled by the inductive `PyVal` with `PyVal.get`
mirroring `dict.get(key, default)`; per-key state and the arbitrator state
are records mirroring the source classes.
-/

/-- A Python configuration value: string, number, boolean, or string-keyed
dict (association list, first binding wins, as in the literal dicts built by
the source). Numbers are modelled as rationals (all numeric literals in the
configuration paths are decimal literals). -/
inductive PyVal where
  | str : String → PyVal
  | num : ℚ → PyVal
  | bool : Bool → PyVal
  | dict : List (String × PyVal) → PyVal

/-- Lookup in an association list, as Python dict lookup on literal dicts. -/
def dictFind : List (String × PyVal) → String → Option PyVal
  | [], _ => none
  | (k, v) :: rest, key => if k = key then some v else dictFind rest key

/-- `d.get(key, default)`: on a dict, the stored value or the default;
the configuration paths in the source only call `.get` on dicts. -/
def PyVal.get (v : PyVal) (key : String) (default : PyVal) : PyVal :=
  match v with
  | .dict entries => (dictFind entries key).getD default
  | _ => default

/-- The `default_bindings` dict of `InputManager._init_keyboard_support`
(`input_manager.py`). -/
def default_bindings : PyVal :=
  .dict [("steer_left", .str "a"), ("steer_right", .str "d"),
         ("throttle", .str "w"), ("brake", .str "s"),
         ("gear_up", .str "shift"), ("gear_down", .str "ctrl"),
         ("clutch", .str "space"), ("handbrake", .str "alt")]

/-- The `keyboard_config` dict that `InputManager._init_keyboard_support`
builds from the main configuration and passes to `KeyboardProcessor`
(`input_manager.py` lines 54-76). -/
def input_manager_keyboard_config (mainConfig : PyVal) : PyVal :=
  let key_bindings := mainConfig.get "key_bindings" default_bindings
  .dict [
    ("steering_keys", .dict [
        ("left", key_bindings.get "steer_left" (.str "a")),
        ("right", key_bindings.get "steer_right" (.str "d"))]),
    ("throttle_key", key_bindings.get "throttle" (.str "w")),
    ("brake_key", key_bindings.get "brake" (.str "s")),
    ("sensitivity", .dict [
        ("steering", mainConfig.get "response_speed" (.num 1)),
        ("throttle", .num 1),
        ("brake", .num 1)]),
    ("smoothing", .dict [
        ("steering", .num (3/10)),
        ("throttle", .num (1/5)),
        ("brake", .num (1/5))])
  ]

/-- `KeyboardProcessor.__init__`: `self.config = config.get('keyboard_controls', {})`
(`keyboard_processor.py` line 24). -/
def keyboard_controls_section (config : PyVal) : PyVal :=
  config.get "keyboard_controls" (.dict [])

/-- The list of keys monitored by `KeyboardProcessor._init_key_states`
(`keyboard_processor.py` lines 43-53), computed from the processor's
effective configuration section. -/
def tracked_keys (processorCfg : PyVal) : List PyVal :=
  let steering := processorCfg.get "steering" (.dict [])
  let acceleration := processorCfg.get "acceleration" (.dict [])
  [steering.get "left_key" (.str "a"),
   steering.get "right_key" (.str "d"),
   acceleration.get "accelerate_key" (.str "w"),
   acceleration.get "brake_key" (.str "s")]

/-! ## Key-hold tracker (`keyboard_processor.py`, `KeyState` and the key handlers) -/

/-- The `KeyState` dataclass: `pressed`, `press_time`, `release_time`,
`hold_duration`, `value`, all numeric fields defaulting to 0. -/
structure KeyState where
  pressed : Bool
  press_time : ℝ
  release_time : ℝ
  hold_duration : ℝ
  value : ℝ

noncomputable section

/-- `_key_pressed` on a single key's state (`keyboard_processor.py` lines
61-72): only a not-yet-pressed key is mutated. -/
def key_pressed_state (st : KeyState) (now : ℝ) : KeyState :=
  if st.pressed then st
  else { st with pressed := true, press_time := now, hold_duration := 0 }

/-- `_key_released` on a single key's state (`keyboard_processor.py` lines
74-84): sets `pressed=False`, `release_time=now`,
`hold_duration = now - press_time`, with no check of `pressed`. -/
def key_released_state (st : KeyState) (now : ℝ) : KeyState :=
  { st with pressed := false, release_time := now,
            hold_duration := now - st.press_time }

/-- The key-state table `self.key_states`, a dict from key name to state. -/
def on_key_down (table : String → Option KeyState) (key : String) (now : ℝ) :
    String → Option KeyState :=
  fun k => if k = key then (table k).map (fun st => key_pressed_state st now) else table k

/-- `_key_released` at the table level: the guard `if key in self.key_states`
makes an event for an untracked key a no-op. -/
def on_key_up (table : String → Option KeyState) (key : String) (now : ℝ) :
    String → Option KeyState :=
  fun k => if k = key then (table k).map (fun st => key_released_state st now) else table k

/-! ## Axis shaping (`keyboard_processor.py`, `update` and helpers) -/

/-- The hold-duration curve of `_calculate_key_value` (lines 162-164):
`min(1.0, 1.0 - exp(-hold_time * 2.0))`. -/
def raw_curve (hold_time : ℝ) : ℝ :=
  min 1 (1 - Real.exp (-hold_time * 2))

/-- `_calculate_key_value` (lines 153-164): 0 for an untracked or unpressed
key, otherwise the curve of `now - press_time` (the source reads
`time.time()` here). -/
def calculate_key_value (table : String → Option KeyState) (key : String) (now : ℝ) : ℝ :=
  match table key with
  | none => 0
  | some st => if st.pressed then raw_curve (now - st.press_time) else 0

/-- `self.steering_smoothing = 0.8` (line 37). -/
def steering_smoothing : ℝ := 0.8

/-- `self.pedal_smoothing = 0.7` (line 38). -/
def pedal_smoothing : ℝ := 0.7

/-- `_smooth_value` (lines 166-172): snap when within 0.001 of the target,
otherwise a frame-rate-compensated exponential blend using
`rate = 1 - smoothing ** (delta_time * 60)`. -/
def smooth_value (current target smoothing delta_time : ℝ) : ℝ :=
  if |target - current| < 0.001 then target
  else current + (target - current) * (1 - smoothing ^ (delta_time * 60))

/-- Iterated ticks of `_smooth_value` at a constant target and fixed `dt`. -/
def smoothIter (target smoothing dt start : ℝ) : ℕ → ℝ
  | 0 => start
  | n + 1 => smooth_value (smoothIter target smoothing dt start n) target smoothing dt

/-- The `steering` configuration section as read by `_update_steering`
(keys `left_key`, `right_key`, `gradual_turn`, `return_to_center`,
`center_speed`). -/
structure SteeringConfig where
  left_key : String
  right_key : String
  gradual_turn : Bool
  return_to_center : Bool
  center_speed : ℝ

/-- The `acceleration` configuration section as read by `_update_pedals`. -/
structure AccelerationConfig where
  accelerate_key : String
  brake_key : String
  progressive_acceleration : Bool

/-- The `assists` configuration section as read by `_apply_assists`,
`_apply_counter_steer` and `_apply_anti_spin`. -/
structure AssistsConfig where
  counter_steer_assist : Bool
  anti_spin_assist : Bool
  counter_steer_strength : ℝ
  spin_prevention : ℝ

/-- The keyboard processor's effective configuration parameters. -/
structure KPConfig where
  steering : SteeringConfig
  acceleration : AccelerationConfig
  assists : AssistsConfig

/-- The `.get` defaults of the steering section
(`'a'`, `'d'`, `gradual_turn=True`, `return_to_center=True`,
`center_speed=0.3`). -/
def default_steering_config : SteeringConfig := ⟨"a", "d", true, true, 0.3⟩

/-- The `.get` defaults of the acceleration section. -/
def default_acceleration_config : AccelerationConfig := ⟨"w", "s", true⟩

/-- The `.get` defaults of the assists section
(both assists on, `counter_steer_strength=0.5`, `spin_prevention=0.6`). -/
def default_assists_config : AssistsConfig := ⟨true, true, 0.5, 0.6⟩

/-- All defaults together (what an empty `keyboard_controls` dict yields). -/
def default_kp_config : KPConfig :=
  ⟨default_steering_config, default_acceleration_config, default_assists_config⟩

/-- The tail of `_update_steering` (lines 102-123), after the two raw key
values have been computed: the smoothing target is `right - left` directly;
gradual smoothing, then return-to-center when both raw values are falsy
(Python `not (left_value or right_value)`, i.e. both equal 0.0). -/
def update_steering_from_values (cfg : SteeringConfig)
    (current left_value right_value delta_time : ℝ) : ℝ :=
  let target_steering := right_value - left_value
  let v := if cfg.gradual_turn then
      smooth_value current target_steering steering_smoothing delta_time
    else target_steering
  if cfg.return_to_center ∧ left_value = 0 ∧ right_value = 0 then
    smooth_value v 0 cfg.center_speed delta_time
  else v

/-- `_update_steering` (lines 93-123). -/
def update_steering (cfg : SteeringConfig) (table : String → Option KeyState)
    (now delta_time current : ℝ) : ℝ :=
  update_steering_from_values cfg current
    (calculate_key_value table cfg.left_key now)
    (calculate_key_value table cfg.right_key now) delta_time

/-- `_update_pedals` (lines 125-151), returning (throttle, brake). -/
def update_pedals (cfg : AccelerationConfig) (table : String → Option KeyState)
    (now delta_time throttle brake : ℝ) : ℝ × ℝ :=
  let target_throttle := calculate_key_value table cfg.accelerate_key now
  let target_brake := calculate_key_value table cfg.brake_key now
  if cfg.progressive_acceleration then
    (smooth_value throttle target_throttle pedal_smoothing delta_time,
     smooth_value brake target_brake pedal_smoothing delta_time)
  else (target_throttle, target_brake)

/-- `_apply_counter_steer` (lines 184-188): acts on the current
`steering_value`, reading the current `throttle_value`. -/
def apply_counter_steer (assists : AssistsConfig) (steering throttle : ℝ) : ℝ :=
  if |steering| > 0.8 ∧ throttle > 0.7 then
    steering * (1 - assists.counter_steer_strength)
  else steering

/-- `_apply_anti_spin` (lines 190-194): acts on the current
`throttle_value`, reading the current `steering_value`. -/
def apply_anti_spin (assists : AssistsConfig) (steering throttle : ℝ) : ℝ :=
  if |steering| > 0.6 ∧ throttle > 0.8 then
    throttle * (1 - assists.spin_prevention)
  else throttle

/-- `_apply_assists` (lines 174-182): counter-steer first (mutating
`steering_value`), then anti-spin reading the mutated steering. -/
def apply_assists (assists : AssistsConfig) (steering throttle : ℝ) : ℝ × ℝ :=
  let s := if assists.counter_steer_assist then
      apply_counter_steer assists steering throttle
    else steering
  let t := if assists.anti_spin_assist then apply_anti_spin assists s throttle else throttle
  (s, t)

/-- The processor's three axis values. -/
structure Axes where
  steering : ℝ
  throttle : ℝ
  brake : ℝ

/-- `update(delta_time)` (lines 86-91): steering, pedals, then assists. -/
def update_tick (cfg : KPConfig) (table : String → Option KeyState)
    (now delta_time : ℝ) (a : Axes) : Axes :=
  let s := update_steering cfg.steering table now delta_time a.steering
  let tb := update_pedals cfg.acceleration table now delta_time a.throttle a.brake
  let st := apply_assists cfg.assists s tb.1
  ⟨st.1, st.2, tb.2⟩

/-- Shifting every recorded timestamp of a key table by `δ` (used to state
how the tick output depends on the wall clock). -/
def shift_table (δ : ℝ) (table : String → Option KeyState) : String → Option KeyState :=
  fun k => (table k).map fun st =>
    { st with press_time := st.press_time + δ, release_time := st.release_time + δ }

/-- A table whose only tracked key is `d`, pressed at time 0. -/
def pressed_d_table : String → Option KeyState :=
  fun k => if k = "d" then some ⟨true, 0, 0, 0, 0⟩ else none

/-- A table tracking only `a`, currently not pressed, all timestamps 0. -/
def idle_a_table : String → Option KeyState :=
  fun k => if k = "a" then some ⟨false, 0, 0, 0, 0⟩ else none

/-- A table tracking no key at all. -/
def empty_key_table : String → Option KeyState := fun _ => none

/-- The configuration used for the wall-clock dependence counterexample:
smoothing bypasses enabled (`gradual_turn=False`,
`progressive_acceleration=False`), defaults otherwise. -/
def c3_config : KPConfig :=
  ⟨⟨"a", "d", false, true, 0.3⟩, ⟨"w", "s", false⟩, default_assists_config⟩

end

/-! ## Device arbitrator (`input_device_manager.py`) -/

/-- The `InputDevice` enum. -/
inductive InputDevice where
  | keyboard
  | steering_wheel
  | unknown
deriving DecidableEq

/-- The arbitrator's state: `current_device`, the two activity timestamps,
`detection_threshold`, the registered callbacks, plus the observable event
record (one entry in `notifications` per `_notify_device_changed` call, and
the logged callback errors). Timestamps are rationals. -/
structure DeviceManagerState where
  current_device : InputDevice
  last_keyboard_time : ℚ
  last_wheel_time : ℚ
  detection_threshold : ℚ
  device_changed_callbacks : List (InputDevice → Except String Unit)
  notifications : List InputDevice
  error_log : List String

/-- The loop of `_notify_device_changed` (lines 71-77): each callback is
invoked with the (new) current device; a raising callback yields an
`Except.error` which is caught, and the loop continues with the rest. -/
def notify_results :
    List (InputDevice → Except String Unit) → InputDevice → List (Except String Unit)
  | [], _ => []
  | cb :: rest, d => cb d :: notify_results rest d

/-- The error messages logged by `_notify_device_changed`. -/
def notify_errors (cbs : List (InputDevice → Except String Unit)) (d : InputDevice) :
    List String :=
  (notify_results cbs d).filterMap fun r =>
    match r with
    | .ok _ => none
    | .error e => some e

/-- `__init__` (lines 21-27): `UNKNOWN`, both activity times 0, threshold
0.5 s, a given callback list, nothing notified or logged yet. -/
def initial_device_state (cbs : List (InputDevice → Except String Unit)) :
    DeviceManagerState :=
  ⟨.unknown, 0, 0, 1/2, cbs, [], []⟩

/-- `last_keyboard_time` after the activity check of one loop iteration
(line 84-85): refreshed to `now` iff a monitored key is down. -/
def last_keyboard_after (s : DeviceManagerState) (now : ℚ) (keyboardPressed : Bool) : ℚ :=
  if keyboardPressed then now else s.last_keyboard_time

/-- `last_wheel_time` after the activity check (lines 88-90). -/
def last_wheel_after (s : DeviceManagerState) (now : ℚ) (wheelRaw : Bool) : ℚ :=
  if wheelRaw then now else s.last_wheel_time

/-- The `new_device` computed by one iteration (lines 93-102). -/
def new_device_of (s : DeviceManagerState) (now : ℚ) (keyboardPressed wheelRaw : Bool) :
    InputDevice :=
  let keyboard_active := now - last_keyboard_after s now keyboardPressed < s.detection_threshold
  let wheel_active := now - last_wheel_after s now wheelRaw < s.detection_threshold
  if keyboard_active ∧ ¬wheel_active then .keyboard
  else if wheel_active ∧ ¬keyboard_active then .steering_wheel
  else .unknown

/-- One iteration of `_device_detection_loop` (lines 81-109): refresh the
activity timestamps, compute the new device, and on a change assign
`current_device` and notify (appending to the notification record and the
error log); on no change only the timestamps move. -/
def detection_step (s : DeviceManagerState) (now : ℚ) (keyboardPressed wheelRaw : Bool) :
    DeviceManagerState :=
  let lastKb := last_keyboard_after s now keyboardPressed
  let lastWh := last_wheel_after s now wheelRaw
  let newDevice := new_device_of s now keyboardPressed wheelRaw
  if newDevice ≠ s.current_device then
    { s with last_keyboard_time := lastKb, last_wheel_time := lastWh,
             current_device := newDevice,
             notifications := s.notifications ++ [newDevice],
             error_log := s.error_log ++ notify_errors s.device_changed_callbacks newDevice }
  else
    { s with last_keyboard_time := lastKb, last_wheel_time := lastWh }

/-! ## Theorems -/

/-- C4: For every main configuration (hence every key-bindings dict passed
through `set_config`/`update_key_bindings`), the config dict the input
manager hands to the keyboard processor has no `keyboard_controls` key, so
the processor's effective configuration section is the empty dict, the
tracked keys are exactly the hard-coded defaults `a`, `d`, `w`, `s`, and the
processor's effective section is the same constant for any two main
configurations (bindings, smoothing and assist flags never reach it). -/
theorem input_manager_bindings_never_reach_processor (mainConfig mainConfig2 : PyVal) :
    keyboard_controls_section (input_manager_keyboard_config mainConfig) = .dict []
    ∧ tracked_keys (keyboard_controls_section (input_manager_keyboard_config mainConfig))
        = [.str "a", .str "d", .str "w", .str "s"]
    ∧ keyboard_controls_section (input_manager_keyboard_config mainConfig)
        = keyboard_controls_section (input_manager_keyboard_config mainConfig2) := by
  refine ⟨rfl, rfl, rfl⟩

/-- The `min` in the hold curve is inert: the curve is
`1 - exp(-hold_time * 2)` outright, since that is always `≤ 1`. -/
theorem raw_curve_eq (x : ℝ) : raw_curve x = 1 - Real.exp (-x * 2) := by
  unfold raw_curve
  apply min_eq_right
  have := Real.exp_pos (-x * 2)
  linarith

theorem raw_curve_nonneg {x : ℝ} (hx : 0 ≤ x) : 0 ≤ raw_curve x := by
  rw [raw_curve_eq]
  have h : Real.exp (-x * 2) ≤ 1 := by
    rw [show (1 : ℝ) = Real.exp 0 from (Real.exp_zero).symm]
    exact Real.exp_le_exp.mpr (by nlinarith)
  linarith

theorem raw_curve_lt_one (x : ℝ) : raw_curve x < 1 := by
  rw [raw_curve_eq]
  have := Real.exp_pos (-x * 2)
  linarith

theorem raw_curve_mono {x y : ℝ} (hxy : x ≤ y) : raw_curve x ≤ raw_curve y := by
  rw [raw_curve_eq, raw_curve_eq]
  have : Real.exp (-y * 2) ≤ Real.exp (-x * 2) := Real.exp_le_exp.mpr (by nlinarith)
  linarith

/-- C7: the raw hold-duration curve maps every nonnegative hold time into
`[0,1)`, is monotone non-decreasing, and is 0 at hold time 0. -/
theorem raw_curve_spec (h1 h2 : ℝ) (hh : 0 ≤ h1) (hle : h1 ≤ h2) :
    (0 ≤ raw_curve h1 ∧ raw_curve h1 < 1) ∧ raw_curve h1 ≤ raw_curve h2
      ∧ raw_curve 0 = 0 := by
  refine ⟨⟨raw_curve_nonneg hh, raw_curve_lt_one h1⟩, raw_curve_mono hle, ?_⟩
  rw [raw_curve_eq]
  norm_num

/-- C7 witness at hold times 1 and 2. -/
theorem raw_curve_spec_witness :
    (0 ≤ raw_curve 1 ∧ raw_curve 1 < 1) ∧ raw_curve 1 ≤ raw_curve 2
      ∧ raw_curve 0 = 0 :=
  raw_curve_spec 1 2 (by norm_num) (by norm_num)

/-- One smoothing step stays inside any interval containing both the current
value and the target (for a smoothing base in `[0,1]` and `dt ≥ 0`). -/
theorem smooth_value_between {current target smoothing dt lo hi : ℝ}
    (hs0 : 0 ≤ smoothing) (hs1 : smoothing ≤ 1) (hdt : 0 ≤ dt)
    (h1 : lo ≤ current) (h2 : current ≤ hi) (h3 : lo ≤ target) (h4 : target ≤ hi) :
    lo ≤ smooth_value current target smoothing dt
      ∧ smooth_value current target smoothing dt ≤ hi := by
  unfold smooth_value
  split
  · exact ⟨h3, h4⟩
  · have hexp : (0 : ℝ) ≤ dt * 60 := by nlinarith
    have hq1 : smoothing ^ (dt * 60) ≤ 1 := Real.rpow_le_one hs0 hs1 hexp
    have hq0 : 0 ≤ smoothing ^ (dt * 60) := Real.rpow_nonneg hs0 _
    set r := 1 - smoothing ^ (dt * 60) with hr
    have hr0 : 0 ≤ r := by simp [hr]; linarith
    have hr1 : r ≤ 1 := by simp [hr]; linarith
    constructor
    · nlinarith [mul_nonneg (sub_nonneg.mpr h1) (sub_nonneg.mpr hr1),
        mul_nonneg (sub_nonneg.mpr h3) hr0]
    · nlinarith [mul_nonneg (sub_nonneg.mpr h2) (sub_nonneg.mpr hr1),
        mul_nonneg (sub_nonneg.mpr h4) hr0]

/-- One smoothing step multiplies the distance to the target by at most
`smoothing ^ (dt * 60)`. -/
theorem smooth_value_error {current target smoothing dt : ℝ} (hs0 : 0 ≤ smoothing) :
    |target - smooth_value current target smoothing dt|
      ≤ |target - current| * smoothing ^ (dt * 60) := by
  unfold smooth_value
  have hq0 : 0 ≤ smoothing ^ (dt * 60) := Real.rpow_nonneg hs0 _
  split
  · simpa using mul_nonneg (abs_nonneg (target - current)) hq0
  · have h : target - (current + (target - current) * (1 - smoothing ^ (dt * 60)))
        = (target - current) * smoothing ^ (dt * 60) := by ring
    rw [h, abs_mul, abs_of_nonneg hq0]

theorem smoothIter_error (target smoothing dt start : ℝ) (hs0 : 0 ≤ smoothing) (n : ℕ) :
    |target - smoothIter target smoothing dt start n|
      ≤ |target - start| * (smoothing ^ (dt * 60)) ^ n := by
  induction n with
  | zero => simp [smoothIter]
  | succ n ih =>
    have step := @smooth_value_error (smoothIter target smoothing dt start n)
      target smoothing dt hs0
    have hq0 : 0 ≤ smoothing ^ (dt * 60) := Real.rpow_nonneg hs0 _
    calc |target - smoothIter target smoothing dt start (n + 1)|
        ≤ |target - smoothIter target smoothing dt start n| * smoothing ^ (dt * 60) := step
      _ ≤ (|target - start| * (smoothing ^ (dt * 60)) ^ n) * smoothing ^ (dt * 60) :=
          mul_le_mul_of_nonneg_right ih hq0
      _ = |target - start| * (smoothing ^ (dt * 60)) ^ (n + 1) := by ring

/-- C6: iterating the smoothing step at a constant target, fixed `dt > 0`
and smoothing base in `(0,1)` reaches the target exactly in finitely many
ticks (the 1e-3 snap ends the asymptotic tail), and each iterate stays
between the previous value and the target (no overshoot). -/
theorem smoothing_reaches_target (target smoothing dt start : ℝ)
    (hdt : 0 < dt) (hs0 : 0 < smoothing) (hs1 : smoothing < 1) :
    (∃ N, smoothIter target smoothing dt start N = target)
    ∧ ∀ n, min (smoothIter target smoothing dt start n) target
          ≤ smoothIter target smoothing dt start (n + 1)
        ∧ smoothIter target smoothing dt start (n + 1)
          ≤ max (smoothIter target smoothing dt start n) target := by
  have hs0' : (0 : ℝ) ≤ smoothing := le_of_lt hs0
  have hq1 : smoothing ^ (dt * 60) < 1 :=
    Real.rpow_lt_one hs0' hs1 (by nlinarith)
  have hq0 : 0 ≤ smoothing ^ (dt * 60) := Real.rpow_nonneg hs0' _
  constructor
  · have hE : (0 : ℝ) < 0.001 / (|target - start| + 1) := by positivity
    obtain ⟨n, hn⟩ := exists_pow_lt_of_lt_one hE hq1
    have hEpos : (0 : ℝ) < |target - start| + 1 := by positivity
    have habs : (0 : ℝ) ≤ |target - start| := abs_nonneg _
    have hqn : 0 ≤ (smoothing ^ (dt * 60)) ^ n := pow_nonneg hq0 n
    have hsmall : |target - smoothIter target smoothing dt start n| < 0.001 := by
      have hb := smoothIter_error target smoothing dt start hs0' n
      have h2 : (smoothing ^ (dt * 60)) ^ n * (|target - start| + 1) < 0.001 :=
        (lt_div_iff₀ hEpos).mp hn
      have h3 : |target - start| * (smoothing ^ (dt * 60)) ^ n < 0.001 := by nlinarith
      linarith
    refine ⟨n + 1, ?_⟩
    have hstep : smoothIter target smoothing dt start (n + 1)
        = smooth_value (smoothIter target smoothing dt start n) target smoothing dt := rfl
    rw [hstep]
    simp only [smooth_value]
    rw [if_pos hsmall]
  · intro n
    exact smooth_value_between hs0' (le_of_lt hs1) (le_of_lt hdt)
      (min_le_left _ _) (le_max_left _ _) (min_le_right _ _) (le_max_right _ _)

/-- C6 witness: target 1, smoothing 1/2, dt 1/60, start 0. -/
theorem smoothing_reaches_target_witness :
    (∃ N, smoothIter 1 (1/2) (1/60) 0 N = 1)
    ∧ ∀ n, min (smoothIter 1 (1/2) (1/60) 0 n) 1 ≤ smoothIter 1 (1/2) (1/60) 0 (n + 1)
        ∧ smoothIter 1 (1/2) (1/60) 0 (n + 1) ≤ max (smoothIter 1 (1/2) (1/60) 0 n) 1 :=
  smoothing_reaches_target 1 (1/2) (1/60) 0 (by norm_num) (by norm_num) (by norm_num)

theorem abs_eval {x : ℝ} (hx : 0 ≤ x) : |x| = x := abs_of_nonneg hx

/-- C1 counterexample: with both assists enabled at default strengths,
pre-assist steering 0.9 and throttle 0.9 (so pre-assist |steering| > 0.8 and
throttle > 0.8), the tick leaves the throttle at 0.9 — the anti-spin check
sees the counter-steer-reduced steering 0.45, not the pre-assist 0.9 — while
the claim demands it be scaled to 0.9 * (1 - 0.6). -/
theorem anti_spin_reads_reduced_steering_counterexample :
    (apply_assists default_assists_config 0.9 0.9).2 = 0.9
    ∧ (0.9 : ℝ) ≠ 0.9 * (1 - 0.6) := by
  constructor
  · have hcs : |(0.9 : ℝ)| > 0.8 ∧ (0.9 : ℝ) > 0.7 := by
      rw [abs_eval (by norm_num)]
      norm_num
    have hred : (0.9 : ℝ) * (1 - default_assists_config.counter_steer_strength) = 0.45 := by
      simp only [default_assists_config]
      norm_num
    have hns : ¬ (|(0.45 : ℝ)| > 0.6 ∧ (0.9 : ℝ) > 0.8) := by
      rw [abs_eval (by norm_num)]
      norm_num
    simp only [apply_assists, apply_counter_steer, apply_anti_spin,
      default_assists_config, if_true, if_pos hcs]
    rw [show (0.9 : ℝ) * (1 - 0.5) = 0.45 from by norm_num]
    rw [if_neg (by rw [abs_eval (by norm_num)]; norm_num :
      ¬ (|(0.45 : ℝ)| > 0.6 ∧ (0.9 : ℝ) > 0.8))]
  · norm_num

/-- C1 amended: the anti-spin trigger is evaluated against the steering
value already reduced by counter-steer. With both assists enabled at the
default strengths, for every shaped pair with pre-assist |steering| in
(0.8, 1] and throttle > 0.8, counter-steer fires first and halves the
steering to at most 0.5 < 0.6, so anti-spin does not fire and the throttle
is left unchanged in that tick. -/
theorem anti_spin_after_counter_steer (s t : ℝ)
    (hs1 : |s| ≤ 1) (hs : |s| > 0.8) (ht : t > 0.8) :
    apply_assists default_assists_config s t = (s * (1 - 0.5), t) := by
  have hcs : |s| > 0.8 ∧ t > 0.7 := ⟨hs, by linarith⟩
  have habs : |s * (1 - 0.5)| = |s| * 0.5 := by
    rw [abs_mul]
    norm_num
  have hns : ¬ (|s * (1 - 0.5)| > 0.6 ∧ t > 0.8) := by
    rw [habs]
    intro h
    nlinarith [h.1]
  simp only [apply_assists, apply_counter_steer, apply_anti_spin,
    default_assists_config, if_true, if_pos hcs, if_neg hns]

/-- C1 amended witness at steering 0.9, throttle 0.9. -/
theorem anti_spin_after_counter_steer_witness :
    apply_assists default_assists_config 0.9 0.9 = (0.9 * (1 - 0.5), 0.9) :=
  anti_spin_after_counter_steer 0.9 0.9
    (by rw [abs_eval (by norm_num)]; norm_num)
    (by rw [abs_eval (by norm_num)]; norm_num)
    (by norm_num)

/-- One default tick of the steering update from center, fed a raw target
`rv` in `[0.001, 1]`: the target is smoothed directly (no deadzone), giving
`rv * (1 - 0.8) = rv / 5`. -/
theorem update_steering_default_eval (rv : ℝ) (h1 : 0.001 ≤ rv) (_h2 : rv ≤ 1) :
    update_steering_from_values default_steering_config 0 0 rv (1/60) = rv / 5 := by
  have hrv0 : rv ≠ 0 := by intro h; rw [h] at h1; norm_num at h1
  have hsnap : ¬ (|rv - 0 - 0| < 0.001) := by
    rw [show rv - 0 - 0 = rv from by ring, abs_eval (by linarith)]
    exact not_lt.mpr h1
  simp only [update_steering_from_values, default_steering_config, smooth_value,
    if_true, if_neg hsnap]
  rw [if_neg]
  · rw [show ((1 : ℝ)/60) * 60 = 1 from by norm_num, Real.rpow_one]
    unfold steering_smoothing
    ring_nf
  · simp only [not_and]
    intro _ _
    exact hrv0

/-- C2 counterexample: the keyboard processor has no deadzone step. With the
default steering configuration (there is no deadzone key for the processor
to read, whatever deadzone the user configures), a raw steering target of
0.03 from center is fed to smoothing as 0.03, and one tick at dt = 1/60
moves steering to 0.006 ≠ 0 — whereas the claim requires the effective
smoothing target (hence the result from center) to be exactly 0. -/
theorem no_deadzone_counterexample :
    update_steering_from_values default_steering_config 0 0 (3/100) (1/60) = 3/500
    ∧ (3/500 : ℝ) ≠ 0 := by
  constructor
  · rw [update_steering_default_eval (3/100) (by norm_num) (by norm_num)]
    norm_num
  · norm_num

/-- C2 amended: no deadzone is applied anywhere in the shaping pipeline —
the raw steering target `right - left` is used directly as the smoothing
target. For every raw target `rv` with `0.001 ≤ rv ≤ 1` (in particular
every value in the claimed deadzone band `[0.001, 0.05)`), one default tick
from center at dt = 1/60 yields `rv * (1 - 0.8) = rv/5`, not 0. -/
theorem sub_deadzone_target_passes_through (rv : ℝ)
    (h1 : 0.001 ≤ rv) (h2 : rv ≤ 1) :
    update_steering_from_values default_steering_config 0 0 rv (1/60) = rv / 5 :=
  update_steering_default_eval rv h1 h2

/-- C2 amended witness at raw target 0.03: the tick yields 0.006. -/
theorem sub_deadzone_target_passes_through_witness :
    update_steering_from_values default_steering_config 0 0 (3/100) (1/60) = (3/100) / 5 :=
  sub_deadzone_target_passes_through (3/100) (by norm_num) (by norm_num)

/-- C9 counterexample: a key-up event on tracked key `a` that is NOT
currently pressed still mutates its state (the handler has no `pressed`
guard): with all timestamps 0, the event at time 5 overwrites
`release_time` (and `hold_duration`) with 5, so the state does not remain
unchanged as the claim requires. -/
theorem key_up_on_unpressed_counterexample :
    on_key_up idle_a_table "a" 5 "a" ≠ idle_a_table "a" := by
  intro h
  simp only [on_key_up, idle_a_table, key_released_state] at h
  norm_num [KeyState.mk.injEq] at h

/-- C9 amended: `_key_released` mutates a tracked key's state
unconditionally — it sets `pressed=false`, `release_time=now` and
`hold_duration = now - press_time` whether or not the key was pressed —
while events for untracked keys remain no-ops. -/
theorem key_up_mutates_unconditionally (table : String → Option KeyState)
    (key k : String) (now : ℝ) (st : KeyState)
    (hk : table key = some st) (hne : k ≠ key) :
    on_key_up table key now key
        = some { st with pressed := false, release_time := now,
                         hold_duration := now - st.press_time }
    ∧ on_key_up table key now k = table k := by
  constructor
  · simp [on_key_up, hk, key_released_state]
  · simp [on_key_up, hne]

/-- C9 amended witness: the not-pressed `a` state with all fields 0,
released at time 5. -/
theorem key_up_mutates_unconditionally_witness :
    on_key_up idle_a_table "a" 5 "a" = some ⟨false, 0, 5, 5 - 0, 0⟩
    ∧ on_key_up idle_a_table "a" 5 "b" = idle_a_table "b" :=
  key_up_mutates_unconditionally idle_a_table "a" "b" 5 ⟨false, 0, 0, 0, 0⟩
    (by simp [idle_a_table]) (by simp)

/-- Evaluation of the tick used for the wall-clock counterexample: with
only `d` held (pressed at time 0), smoothing bypasses enabled and centered
axes, the steering output is the hold curve of the current wall-clock
reading. -/
theorem update_tick_c3_eval (now : ℝ) (hn : 0 < now) :
    (update_tick c3_config pressed_d_table now (1/60) ⟨0, 0, 0⟩).steering
      = 1 - Real.exp (-(now * 2)) := by
  have hrv : calculate_key_value pressed_d_table "d" now = 1 - Real.exp (-(now * 2)) := by
    simp only [calculate_key_value, pressed_d_table]
    norm_num [raw_curve_eq]
  have hlv : calculate_key_value pressed_d_table "a" now = 0 := by
    simp [calculate_key_value, pressed_d_table]
  have hw : calculate_key_value pressed_d_table "w" now = 0 := by
    simp [calculate_key_value, pressed_d_table]
  have hsk : calculate_key_value pressed_d_table "s" now = 0 := by
    simp [calculate_key_value, pressed_d_table]
  have hexp1 : Real.exp (-(now * 2)) < 1 := by
    rw [show (1 : ℝ) = Real.exp 0 from Real.exp_zero.symm]
    exact Real.exp_lt_exp.mpr (by nlinarith)
  have hrvpos : (0 : ℝ) < 1 - Real.exp (-(now * 2)) := by linarith
  have hrvne : 1 - Real.exp (-(now * 2)) ≠ 0 := hrvpos.ne'
  have h07 : ¬ ((0 : ℝ) > 0.7) := by norm_num
  have h08 : ¬ ((0 : ℝ) > 0.8) := by norm_num
  have hsteer : update_steering c3_config.steering pressed_d_table now (1/60) 0
      = 1 - Real.exp (-(now * 2)) := by
    simp [update_steering, update_steering_from_values, c3_config, hrv, hlv, hrvne]
  have hped : update_pedals c3_config.acceleration pressed_d_table now (1/60) 0 0 = (0, 0) := by
    simp [update_pedals, c3_config, hw, hsk]
  have hass : apply_assists c3_config.assists (1 - Real.exp (-(now * 2))) 0
      = (1 - Real.exp (-(now * 2)), 0) := by
    simp [apply_assists, apply_counter_steer, apply_anti_spin, c3_config,
      default_assists_config, h07, h08]
  simp only [update_tick]
  rw [hsteer, hped]
  rw [show ((0 : ℝ), (0 : ℝ)).1 = (0 : ℝ) from rfl]
  rw [hass]

/-- C3 counterexample: with identical key states (only `d` pressed at
time 0), identical configuration and identical dt = 1/60, two ticks taken
at wall-clock times 1 and 2 produce different steering outputs — the hold
duration is computed from `time.time()`, a hidden input not among
(key states, dt, configuration). -/
theorem wall_clock_dependence_counterexample :
    (update_tick c3_config pressed_d_table 1 (1/60) ⟨0, 0, 0⟩).steering
      ≠ (update_tick c3_config pressed_d_table 2 (1/60) ⟨0, 0, 0⟩).steering := by
  rw [update_tick_c3_eval 1 (by norm_num), update_tick_c3_eval 2 (by norm_num)]
  intro h
  have hlt : Real.exp (-((2:ℝ) * 2)) < Real.exp (-((1:ℝ) * 2)) :=
    Real.exp_lt_exp.mpr (by norm_num)
  linarith

theorem calculate_key_value_shift (table : String → Option KeyState)
    (k : String) (now δ : ℝ) :
    calculate_key_value (shift_table δ table) k (now + δ) = calculate_key_value table k now := by
  unfold calculate_key_value shift_table
  cases h : table k with
  | none => simp [h]
  | some st =>
    simp only [h, Option.map_some']
    have harg : now + δ - (st.press_time + δ) = now - st.press_time := by ring
    simp [harg]

/-- C3 amended: the per-tick output is a deterministic function of the key
states, dt, configuration AND the wall-clock reading, and it depends on the
clock only through the hold durations `now - press_time`: shifting the
clock and every recorded timestamp by the same offset leaves the output
bit-identical. (It is not independent of the wall clock itself.) -/
theorem tick_deterministic_given_clock (cfg : KPConfig)
    (table : String → Option KeyState) (now dt δ : ℝ) (a : Axes) :
    update_tick cfg (shift_table δ table) (now + δ) dt a = update_tick cfg table now dt a := by
  simp only [update_tick, update_steering, update_pedals, calculate_key_value_shift]

theorem calculate_key_value_bounds (table : String → Option KeyState) (k : String) (now : ℝ)
    (htable : ∀ key st, table key = some st → st.pressed = true → st.press_time ≤ now) :
    0 ≤ calculate_key_value table k now ∧ calculate_key_value table k now < 1 := by
  unfold calculate_key_value
  cases h : table k with
  | none => norm_num
  | some st =>
    by_cases hp : st.pressed = true
    · simp only [hp, if_true]
      have hpt := htable k st h hp
      exact ⟨raw_curve_nonneg (by linarith), raw_curve_lt_one _⟩
    · simp only [hp, if_false]
      norm_num

theorem update_steering_from_values_bounds (cfg : SteeringConfig) (cur lv rv dt : ℝ)
    (hdt : 0 ≤ dt) (hcs0 : 0 ≤ cfg.center_speed) (hcs1 : cfg.center_speed ≤ 1)
    (hcur : -1 ≤ cur ∧ cur ≤ 1) (hlv : 0 ≤ lv ∧ lv < 1) (hrv : 0 ≤ rv ∧ rv < 1) :
    -1 ≤ update_steering_from_values cfg cur lv rv dt
      ∧ update_steering_from_values cfg cur lv rv dt ≤ 1 := by
  have htar : -1 ≤ rv - lv ∧ rv - lv ≤ 1 := by
    constructor <;> nlinarith [hlv.1, hlv.2, hrv.1, hrv.2]
  have hsm : (0 : ℝ) ≤ steering_smoothing ∧ steering_smoothing ≤ 1 := by
    unfold steering_smoothing
    norm_num
  have hvb : -1 ≤ (if cfg.gradual_turn then
        smooth_value cur (rv - lv) steering_smoothing dt else rv - lv)
      ∧ (if cfg.gradual_turn then
        smooth_value cur (rv - lv) steering_smoothing dt else rv - lv) ≤ 1 := by
    split
    · exact smooth_value_between hsm.1 hsm.2 hdt hcur.1 hcur.2 htar.1 htar.2
    · exact htar
  simp only [update_steering_from_values]
  split
  · exact smooth_value_between hcs0 hcs1 hdt hvb.1 hvb.2 (by norm_num) (by norm_num)
  · exact hvb

theorem update_pedals_bounds (cfg : AccelerationConfig) (table : String → Option KeyState)
    (now dt t b : ℝ) (hdt : 0 ≤ dt)
    (htable : ∀ key st, table key = some st → st.pressed = true → st.press_time ≤ now)
    (ht : 0 ≤ t ∧ t ≤ 1) (hb : 0 ≤ b ∧ b ≤ 1) :
    (0 ≤ (update_pedals cfg table now dt t b).1 ∧ (update_pedals cfg table now dt t b).1 ≤ 1)
    ∧ (0 ≤ (update_pedals cfg table now dt t b).2
        ∧ (update_pedals cfg table now dt t b).2 ≤ 1) := by
  have htt := calculate_key_value_bounds table cfg.accelerate_key now htable
  have htb := calculate_key_value_bounds table cfg.brake_key now htable
  have hps : (0 : ℝ) ≤ pedal_smoothing ∧ pedal_smoothing ≤ 1 := by
    unfold pedal_smoothing
    norm_num
  simp only [update_pedals]
  split
  · constructor
    · exact smooth_value_between hps.1 hps.2 hdt ht.1 ht.2 htt.1 (le_of_lt htt.2)
    · exact smooth_value_between hps.1 hps.2 hdt hb.1 hb.2 htb.1 (le_of_lt htb.2)
  · exact ⟨⟨htt.1, le_of_lt htt.2⟩, htb.1, le_of_lt htb.2⟩

theorem apply_assists_bounds (acfg : AssistsConfig) (s t : ℝ)
    (hq0 : 0 ≤ acfg.counter_steer_strength) (hq1 : acfg.counter_steer_strength ≤ 1)
    (hp0 : 0 ≤ acfg.spin_prevention) (hp1 : acfg.spin_prevention ≤ 1)
    (hs : -1 ≤ s ∧ s ≤ 1) (ht : 0 ≤ t ∧ t ≤ 1) :
    (-1 ≤ (apply_assists acfg s t).1 ∧ (apply_assists acfg s t).1 ≤ 1)
    ∧ (0 ≤ (apply_assists acfg s t).2 ∧ (apply_assists acfg s t).2 ≤ 1) := by
  have htb : ∀ s2 : ℝ,
      0 ≤ (if |s2| > 0.6 ∧ t > 0.8 then t * (1 - acfg.spin_prevention) else t)
      ∧ (if |s2| > 0.6 ∧ t > 0.8 then t * (1 - acfg.spin_prevention) else t) ≤ 1 := by
    intro s2
    split
    · constructor <;> nlinarith [ht.1, ht.2]
    · exact ht
  simp only [apply_assists, apply_counter_steer, apply_anti_spin]
  constructor
  · split
    · split
      · constructor <;> nlinarith [hs.1, hs.2]
      · exact hs
    · exact hs
  · split
    · exact htb _
    · exact ht

/-- C5: the per-tick update preserves the declared axis bounds — for every
key table whose pressed keys were pressed no later than `now`, every
`dt ≥ 0`, and every configuration with `center_speed` in (0,1) and assist
strengths in [0,1], steering stays in [-1,1] and throttle/brake in [0,1]
through smoothing, return-to-center, the direct-assignment bypasses and
both assists. -/
theorem update_tick_preserves_bounds (cfg : KPConfig) (table : String → Option KeyState)
    (now dt : ℝ) (a : Axes)
    (hdt : 0 ≤ dt)
    (htable : ∀ k st, table k = some st → st.pressed = true → st.press_time ≤ now)
    (hcs0 : 0 < cfg.steering.center_speed) (hcs1 : cfg.steering.center_speed < 1)
    (hq0 : 0 ≤ cfg.assists.counter_steer_strength)
    (hq1 : cfg.assists.counter_steer_strength ≤ 1)
    (hp0 : 0 ≤ cfg.assists.spin_prevention) (hp1 : cfg.assists.spin_prevention ≤ 1)
    (hs : -1 ≤ a.steering ∧ a.steering ≤ 1)
    (ht : 0 ≤ a.throttle ∧ a.throttle ≤ 1)
    (hb : 0 ≤ a.brake ∧ a.brake ≤ 1) :
    (-1 ≤ (update_tick cfg table now dt a).steering
      ∧ (update_tick cfg table now dt a).steering ≤ 1)
    ∧ (0 ≤ (update_tick cfg table now dt a).throttle
      ∧ (update_tick cfg table now dt a).throttle ≤ 1)
    ∧ (0 ≤ (update_tick cfg table now dt a).brake
      ∧ (update_tick cfg table now dt a).brake ≤ 1) := by
  have hlv := calculate_key_value_bounds table cfg.steering.left_key now htable
  have hrv := calculate_key_value_bounds table cfg.steering.right_key now htable
  have hsteer := update_steering_from_values_bounds cfg.steering a.steering
    (calculate_key_value table cfg.steering.left_key now)
    (calculate_key_value table cfg.steering.right_key now) dt hdt
    (le_of_lt hcs0) (le_of_lt hcs1) hs hlv hrv
  have hped := update_pedals_bounds cfg.acceleration table now dt a.throttle a.brake
    hdt htable ht hb
  have hass := apply_assists_bounds cfg.assists
    (update_steering cfg.steering table now dt a.steering)
    ((update_pedals cfg.acceleration table now dt a.throttle a.brake).1)
    hq0 hq1 hp0 hp1 hsteer hped.1
  exact ⟨hass.1, hass.2, hped.2⟩

/-- C5 witness: the default configuration, an empty key table, `now = 0`,
`dt = 1`, centered axes. -/
theorem update_tick_preserves_bounds_witness :
    (-1 ≤ (update_tick default_kp_config empty_key_table 0 1 ⟨0, 0, 0⟩).steering
      ∧ (update_tick default_kp_config empty_key_table 0 1 ⟨0, 0, 0⟩).steering ≤ 1)
    ∧ (0 ≤ (update_tick default_kp_config empty_key_table 0 1 ⟨0, 0, 0⟩).throttle
      ∧ (update_tick default_kp_config empty_key_table 0 1 ⟨0, 0, 0⟩).throttle ≤ 1)
    ∧ (0 ≤ (update_tick default_kp_config empty_key_table 0 1 ⟨0, 0, 0⟩).brake
      ∧ (update_tick default_kp_config empty_key_table 0 1 ⟨0, 0, 0⟩).brake ≤ 1) :=
  update_tick_preserves_bounds default_kp_config empty_key_table 0 1 ⟨0, 0, 0⟩
    (by norm_num) (fun k st h => by simp [empty_key_table] at h)
    (by norm_num [default_kp_config, default_steering_config])
    (by norm_num [default_kp_config, default_steering_config])
    (by norm_num [default_kp_config, default_assists_config])
    (by norm_num [default_kp_config, default_assists_config])
    (by norm_num [default_kp_config, default_assists_config])
    (by norm_num [default_kp_config, default_assists_config])
    (by norm_num) (by norm_num) (by norm_num)

theorem detection_step_current_device (s : DeviceManagerState) (now : ℚ) (kb wh : Bool) :
    (detection_step s now kb wh).current_device = new_device_of s now kb wh := by
  simp only [detection_step]
  split
  · rfl
  · next h => exact (not_ne_iff.mp h).symm

theorem detection_step_notifications (s : DeviceManagerState) (now : ℚ) (kb wh : Bool) :
    (detection_step s now kb wh).notifications
      = s.notifications ++
        (if new_device_of s now kb wh ≠ s.current_device
         then [new_device_of s now kb wh] else []) := by
  simp only [detection_step]
  split
  · rfl
  · simp

theorem detection_step_callbacks (s : DeviceManagerState) (now : ℚ) (kb wh : Bool) :
    (detection_step s now kb wh).device_changed_callbacks = s.device_changed_callbacks := by
  simp only [detection_step]
  split <;> rfl

/-- C8: on each sampling step the newly computed device is KEYBOARD iff
keyboard is active and the wheel is not (activity = refreshed timestamp
within the 0.5 s threshold of `now`), STEERING_WHEEL in the symmetric case,
UNKNOWN otherwise; `current_device` is always updated to the computed
device and a notification fires exactly when it differs from the stored
one. In the claim's timeline (keyboard activity at the first sample,
none after, sampled 0.4 s and then 0.6 s later), the state is KEYBOARD at
+0.4 s with no new notification, and becomes UNKNOWN at +0.6 s firing
exactly one notification. -/
theorem device_arbitration_spec :
    (∀ (s : DeviceManagerState) (now : ℚ) (kb wh : Bool),
      ((detection_step s now kb wh).current_device = InputDevice.keyboard ↔
        (now - last_keyboard_after s now kb < s.detection_threshold
          ∧ ¬ now - last_wheel_after s now wh < s.detection_threshold))
      ∧ ((detection_step s now kb wh).current_device = InputDevice.steering_wheel ↔
        (now - last_wheel_after s now wh < s.detection_threshold
          ∧ ¬ now - last_keyboard_after s now kb < s.detection_threshold))
      ∧ (detection_step s now kb wh).current_device = new_device_of s now kb wh
      ∧ (detection_step s now kb wh).notifications
          = s.notifications ++
            (if new_device_of s now kb wh ≠ s.current_device
             then [new_device_of s now kb wh] else []))
    ∧ ((detection_step (initial_device_state []) 1000 true false).current_device
          = InputDevice.keyboard
      ∧ (detection_step (detection_step (initial_device_state []) 1000 true false)
            (5002/5) false false).current_device = InputDevice.keyboard
      ∧ (detection_step (detection_step (detection_step (initial_device_state [])
            1000 true false) (5002/5) false false) (5003/5) false false).current_device
          = InputDevice.unknown
      ∧ (detection_step (detection_step (initial_device_state []) 1000 true false)
            (5002/5) false false).notifications = [InputDevice.keyboard]
      ∧ (detection_step (detection_step (detection_step (initial_device_state [])
            1000 true false) (5002/5) false false) (5003/5) false false).notifications
          = [InputDevice.keyboard, InputDevice.unknown]) := by
  have h1 : detection_step (initial_device_state []) 1000 true false
      = { current_device := InputDevice.keyboard, last_keyboard_time := 1000,
          last_wheel_time := 0, detection_threshold := 1/2,
          device_changed_callbacks := [], notifications := [InputDevice.keyboard],
          error_log := [] } := by
    norm_num [detection_step, initial_device_state, last_keyboard_after,
      last_wheel_after, new_device_of, notify_errors, notify_results]
    decide
  have h2 : detection_step
      ({ current_device := InputDevice.keyboard, last_keyboard_time := 1000,
         last_wheel_time := 0, detection_threshold := 1/2,
         device_changed_callbacks := [], notifications := [InputDevice.keyboard],
         error_log := [] } : DeviceManagerState) (5002/5) false false
      = { current_device := InputDevice.keyboard, last_keyboard_time := 1000,
          last_wheel_time := 0, detection_threshold := 1/2,
          device_changed_callbacks := [], notifications := [InputDevice.keyboard],
          error_log := [] } := by
    norm_num [detection_step, last_keyboard_after, last_wheel_after, new_device_of,
      notify_errors, notify_results]
  have h3 : detection_step
      ({ current_device := InputDevice.keyboard, last_keyboard_time := 1000,
         last_wheel_time := 0, detection_threshold := 1/2,
         device_changed_callbacks := [], notifications := [InputDevice.keyboard],
         error_log := [] } : DeviceManagerState) (5003/5) false false
      = { current_device := InputDevice.unknown, last_keyboard_time := 1000,
          last_wheel_time := 0, detection_threshold := 1/2,
          device_changed_callbacks := [],
          notifications := [InputDevice.keyboard, InputDevice.unknown],
          error_log := [] } := by
    norm_num [detection_step, last_keyboard_after, last_wheel_after, new_device_of,
      notify_errors, notify_results]
    decide
  constructor
  · intro s now kb wh
    refine ⟨?_, ?_, detection_step_current_device s now kb wh,
      detection_step_notifications s now kb wh⟩
    · rw [detection_step_current_device]
      simp only [new_device_of]
      split_ifs with hA hB <;> simp_all
    · rw [detection_step_current_device]
      simp only [new_device_of]
      split_ifs with hA hB <;> simp_all
  · refine ⟨?_, ?_, ?_, ?_, ?_⟩
    · rw [h1]
    · rw [h1, h2]
    · rw [h1, h2, h3]
    · rw [h1, h2]
    · rw [h1, h2, h3]

theorem notify_results_append (l1 l2 : List (InputDevice → Except String Unit))
    (d : InputDevice) :
    notify_results (l1 ++ l2) d = notify_results l1 d ++ notify_results l2 d := by
  induction l1 with
  | nil => simp [notify_results]
  | cons cb rest ih => simp [notify_results, ih]

theorem notify_results_length (l : List (InputDevice → Except String Unit))
    (d : InputDevice) :
    (notify_results l d).length = l.length := by
  induction l with
  | nil => simp [notify_results]
  | cons cb rest ih => simp [notify_results, ih]

/-- C10: a listener that raises during notification yields a caught,
logged error (`Except.error e` in its slot, `e` in the logged errors), the
listeners after it are still invoked with the same device, each registered
listener is invoked exactly once, and the arbitrator's own transition is
unaffected: after a detection step the callback list is unchanged and
`current_device` holds the newly computed device, whatever the callbacks
did. -/
theorem listener_errors_isolated
    (pre post : List (InputDevice → Except String Unit)) (e : String) (d : InputDevice)
    (s : DeviceManagerState) (now : ℚ) (kb wh : Bool) :
    notify_results (pre ++ (fun _ => Except.error e) :: post) d
        = notify_results pre d ++ Except.error e :: notify_results post d
    ∧ (notify_results (pre ++ (fun _ => Except.error e) :: post) d).length
        = pre.length + 1 + post.length
    ∧ e ∈ notify_errors (pre ++ (fun _ => Except.error e) :: post) d
    ∧ (detection_step s now kb wh).device_changed_callbacks = s.device_changed_callbacks
    ∧ (detection_step s now kb wh).current_device = new_device_of s now kb wh := by
  refine ⟨?_, ?_, ?_, detection_step_callbacks s now kb wh,
    detection_step_current_device s now kb wh⟩
  · rw [notify_results_append]
    simp [notify_results]
  · rw [notify_results_length]
    simp
    omega
  · unfold notify_errors
    rw [notify_results_append]
    simp [notify_results, List.filterMap_append]
